import Mathlib

/-!
Shallow embedding of the zsh_codex repository (src/create_completion.py and
src/extract_paths.py).  Strings are modelled as `List Char`; Python string
operations (slicing, startswith, endswith, strip, rsplit) become the
corresponding list operations.  Filesystem state and process effects are
modelled explicitly where a claim needs them.
-/

namespace ZshCodex

/-! ## Python string slicing (main, lines 240-241) -/

/-- Effective index of a Python slice bound `n` on a string of length `L`:
a non-negative bound is clamped to `L`; a negative bound counts from the
end and is clamped below at `0`. -/
def pyIndex (L : Nat) (n : Int) : Nat :=
  if 0 ≤ n then min n.toNat L else ((L : Int) + n).toNat

/-- Python `buffer[:n]`. -/
def pySliceTo (s : List Char) (n : Int) : List Char :=
  s.take (pyIndex s.length n)

/-- Python `buffer[n:]`. -/
def pySliceFrom (s : List Char) (n : Int) : List Char :=
  s.drop (pyIndex s.length n)

/-! ## The reconciliation algorithm (main, lines 239-259) -/

/-- The marker `zsh_prefix = "#!/bin/zsh\n\n"` prepended to the request
(main, line 239). -/
def zshMarker : List Char := "#!/bin/zsh\n\n".toList

/-- `full_command = zsh_prefix + buffer_prefix + buffer_suffix`
(main, line 242). -/
def full_command (bpre bsuf : List Char) : List Char :=
  zshMarker ++ bpre ++ bsuf

/-- Step (a): `if completion.startswith(zsh_prefix): completion =
completion[len(zsh_prefix):]` (main, lines 246-247). -/
def stripMarker (c : List Char) : List Char :=
  if zshMarker.isPrefixOf c then c.drop zshMarker.length else c

/-- Step (b): `line_prefix = buffer_prefix.rsplit("\n", 1)[-1]` — the part
of the prefix after its last line break, or all of it if there is none
(main, line 249). -/
def linePrefix (p : List Char) : List Char :=
  (p.reverse.takeWhile (fun c => c != '\n')).reverse

/-- Step (c): `for prefix in [buffer_prefix, line_prefix]: if
completion.startswith(prefix): completion = completion[len(prefix):]; break`
(main, lines 251-254). -/
def stripLead (bpre lp c : List Char) : List Char :=
  if bpre.isPrefixOf c then c.drop bpre.length
  else if lp.isPrefixOf c then c.drop lp.length
  else c

/-- Step (d): `if buffer_suffix and completion.endswith(buffer_suffix):
completion = completion[:-len(buffer_suffix)]` (main, lines 256-257). -/
def stripTrail (bsuf c : List Char) : List Char :=
  if !bsuf.isEmpty && bsuf.isSuffixOf c then c.take (c.length - bsuf.length)
  else c

/-- Newline test used by `completion.strip("\n")`. -/
def isNL (c : Char) : Bool := c == '\n'

/-- Step (e): `completion = completion.strip("\n")` — trim leading and
trailing newline characters only (main, line 259). -/
def stripNL (c : List Char) : List Char :=
  ((c.dropWhile isNL).reverse.dropWhile isNL).reverse

/-- The whole reconciliation of the raw completion against the buffer
prefix and suffix (main, lines 246-259). -/
def reconcile (bpre bsuf c : List Char) : List Char :=
  stripNL (stripTrail bsuf (stripLead bpre (linePrefix bpre) (stripMarker c)))

/-! ## The path-extracting regular expression (extract_paths, lines 31-56)

`re.findall` is modelled by a left-to-right scan that, at each position,
tries the alternatives of the combined pattern
`(\.{1,2}/\S+|/\S+|\b\S+/\S+\b)|[a-zA-Z]:\\(?:[^\\\s,]+\\?)*[^\\\s,]+`
in order, with Python's greedy backtracking semantics compiled out by hand
for each alternative.  `re.findall` returns, for each match, the text of
the single capture group — which surrounds only the three Unix
alternatives — so a match through the Windows alternative contributes the
empty string. -/

/-- Python `\s` on ASCII input. -/
def isSpaceCh (c : Char) : Bool :=
  c == ' ' || c == '\t' || c == '\n' || c == '\r' || c == '\x0b' || c == '\x0c'

/-- Python `\w` word characters (ASCII): letters, digits, underscore. -/
def isWordCh (c : Char) : Bool := c.isAlphanum || c == '_'

/-- Python `\b` between two optional characters: exactly one side is a
word character (a missing side counts as non-word). -/
def isBoundary (a b : Option Char) : Bool :=
  (match a with | some c => isWordCh c | none => false) !=
  (match b with | some c => isWordCh c | none => false)

/-- Length of the maximal run of `\S` characters at the front. -/
def nonSpaceRun (s : List Char) : Nat :=
  (s.takeWhile (fun c => !isSpaceCh c)).length

/-- First Unix alternative `\.{1,2}/\S+`: one or two dots (two tried
first), a slash, then a maximal non-empty run of non-space characters. -/
def matchAlt1 (s : List Char) : Option Nat :=
  match s with
  | '.' :: '.' :: '/' :: rest =>
    if nonSpaceRun rest == 0 then none else some (3 + nonSpaceRun rest)
  | '.' :: '/' :: rest =>
    if nonSpaceRun rest == 0 then none else some (2 + nonSpaceRun rest)
  | _ => none

/-- Second Unix alternative `/\S+`. -/
def matchAlt2 (s : List Char) : Option Nat :=
  match s with
  | '/' :: rest =>
    if nonSpaceRun rest == 0 then none else some (1 + nonSpaceRun rest)
  | _ => none

/-- Trailing part of `\b\S+/\S+\b`: with the first `\S+` taking `j`
characters and the slash at index `j`, try second-segment lengths from the
greedy maximum down to 1, accepting the first whose end sits on a word
boundary.  Returns the total match length. -/
def alt3M (s : List Char) (j : Nat) : Nat → Option Nat
  | 0 => none
  | m + 1 =>
    if isBoundary s[j + (m + 1)]? s[j + (m + 1) + 1]? then
      some (j + (m + 1) + 1)
    else alt3M s j m

/-- First-segment search of `\b\S+/\S+\b`: try first-segment lengths `j`
from the greedy maximum `R` (the non-space run length) down to 1, requiring
a slash at index `j` and at least one non-space character after it. -/
def alt3K (s : List Char) (R : Nat) : Nat → Option Nat
  | 0 => none
  | j + 1 =>
    if s[j + 1]? == some '/' && j + 1 + 2 ≤ R then
      match alt3M s (j + 1) (R - (j + 1) - 1) with
      | some n => some n
      | none => alt3K s R j
    else alt3K s R j

/-- Third Unix alternative `\b\S+/\S+\b`, with `prev` the character just
before the current position (for the leading word boundary). -/
def matchAlt3 (prev : Option Char) (s : List Char) : Option Nat :=
  match s with
  | [] => none
  | c :: _ =>
    if isBoundary prev (some c) then alt3K s (nonSpaceRun s) (nonSpaceRun s)
    else none

/-- Character class `[^\\\s,]` of the Windows alternative. -/
def isPathCh (c : Char) : Bool := !(c == '\\' || isSpaceCh c || c == ',')

/-- Length of the maximal run of `[^\\\s,]` characters at the front. -/
def pRun (s : List Char) : Nat := (s.takeWhile isPathCh).length

/-- Greedy continuation of `(?:[^\\\s,]+\\?)*[^\\\s,]+` after the first
segment: keep extending over a backslash followed by a non-empty segment. -/
def winLoop : Nat → List Char → Nat → Nat
  | 0, _, acc => acc
  | _ + 1, [], acc => acc
  | fuel + 1, c :: rest, acc =>
    if c == '\\' && pRun rest != 0 then
      winLoop fuel (rest.drop (pRun rest)) (acc + 1 + pRun rest)
    else acc

/-- What `(?:[^\\\s,]+\\?)*[^\\\s,]+` matches: the longest front of the
form of backslash-separated non-empty `[^\\\s,]` segments (greedy
backtracking never leaves a trailing backslash in the match). -/
def winTail (s : List Char) : Option Nat :=
  if pRun s == 0 then none
  else some (winLoop s.length (s.drop (pRun s)) (pRun s))

/-- The Windows alternative `[a-zA-Z]:\\(?:[^\\\s,]+\\?)*[^\\\s,]+`. -/
def matchWin (s : List Char) : Option Nat :=
  match s with
  | a :: ':' :: '\\' :: rest =>
    if a.isAlpha then (winTail rest).map (fun n => 3 + n) else none
  | _ => none

/-- One attempt of the combined pattern at the current position: the three
Unix alternatives in order (capture group participates, `true`), then the
Windows alternative (capture group empty, `false`). -/
def tryMatchAt (prev : Option Char) (s : List Char) : Option (Nat × Bool) :=
  match matchAlt1 s with
  | some n => some (n, true)
  | none =>
    match matchAlt2 s with
    | some n => some (n, true)
    | none =>
      match matchAlt3 prev s with
      | some n => some (n, true)
      | none =>
        match matchWin s with
        | some n => some (n, false)
        | none => none

/-- The `re.findall` scan: at each position try the combined pattern; on a
match emit the capture-group text (the matched text for a Unix
alternative, the empty string for the Windows alternative) and continue
after the match; otherwise advance one character.  Every possible match
has positive length, so fuel equal to the text length suffices. -/
def scan : Nat → Option Char → List Char → List (List Char)
  | 0, _, _ => []
  | _ + 1, _, [] => []
  | fuel + 1, prev, c :: rest =>
    match tryMatchAt prev (c :: rest) with
    | some (n, isU) =>
      (if isU then (c :: rest).take n else []) ::
        scan fuel (c :: rest)[n - 1]? ((c :: rest).drop n)
    | none => scan fuel (some c) rest

/-- `matches = re.findall(combined_pattern, text)` (extract_paths,
line 49). -/
def findAllMatches (text : List Char) : List (List Char) :=
  scan text.length none text

/-- The guard `all([[isinstance(p, str)] for p in matches])`
(extract_paths, line 52): Python `all` over a list of singleton lists,
where the truth value of a list is its non-emptiness. -/
def warnGuard {α : Type} (ms : List α) (isStr : α → Bool) : Bool :=
  (ms.map (fun p => [isStr p])).all (fun l => !l.isEmpty)

/-- The `extract_paths` of src/create_completion.py with its observable
print effects: its only print is in the warning branch, which returns an
empty list after printing the diagnostic (lines 51-56).  The copy in
src/extract_paths.py, which prints more, is `extract_paths_script_run`
below. -/
def extract_paths_run (text : List Char) : List String × List (List Char) :=
  let ms := findAllMatches text
  if warnGuard ms (fun _ => true) then ([], ms)
  else (["[ WARNING ] Failed to extract paths in zsh_codex"], [])

/-- The value returned by `extract_paths` (lines 31-56). -/
def extract_paths (text : List Char) : List (List Char) :=
  (extract_paths_run text).2

/-- One diagnostic print of the `extract_paths` copy in
src/extract_paths.py: the printed value is determined by the data passed
to `print`. -/
inductive ScriptPrint where
  | printMatches : List (List Char) → ScriptPrint
  | printChecks : List (List Bool) → ScriptPrint
  | printWarning : ScriptPrint
deriving DecidableEq

/-- The `extract_paths` of src/extract_paths.py (lines 6-25): the same
regex and guard as the create_completion.py copy, but it additionally
prints the match list and the isinstance-check list unconditionally on
every call (lines 17, 19) before the guard. -/
def extract_paths_script_run (text : List Char) :
    List ScriptPrint × List (List Char) :=
  let ms := findAllMatches text
  let diag := [ScriptPrint.printMatches ms,
               ScriptPrint.printChecks (ms.map (fun _p => [true]))]
  if warnGuard ms (fun _ => true) then (diag, ms)
  else (diag ++ [ScriptPrint.printWarning], [])

/-! ## Directory/file classification (lines 59-96)

The filesystem is a parameter: `isdir` models `os.path.isdir` (exists and
is a directory) and `pathExists` models `os.path.exists`.  `join` models
`posixpath.join` on two components. -/

/-- Whether a path string starts with a slash (`b.startswith('/')`). -/
def startsWithSlash (p : String) : Bool :=
  match p.toList with
  | '/' :: _ => true
  | _ => false

/-- Whether a path string ends with a slash. -/
def endsWithSlash (p : String) : Bool :=
  match p.toList.getLast? with
  | some '/' => true
  | _ => false

/-- `os.path.join(cwd, path)` for two POSIX components: an absolute
second component wins; otherwise the components are joined with a single
slash unless the first is empty or already ends with one. -/
def join (cwd p : String) : String :=
  if startsWithSlash p then p
  else if cwd == "" || endsWithSlash cwd then cwd ++ p
  else cwd ++ "/" ++ p

/-- An abstract filesystem: `os.path.isdir` and `os.path.exists`. -/
structure FS where
  isdir : String → Bool
  pathExists : String → Bool

/-- `extract_valid_dirs(paths, cwd)` (lines 59-75): keep, wrapped as a
singleton list, each candidate whose join with `cwd` is a directory. -/
def extract_valid_dirs (fs : FS) (paths : List String) (cwd : String) :
    List (List String) :=
  match paths with
  | [] => []
  | p :: rest =>
    if fs.isdir (join cwd p) then
      [p] :: extract_valid_dirs fs rest cwd
    else extract_valid_dirs fs rest cwd

/-- `extract_valid_files(paths, cwd)` (lines 78-96): keep, wrapped as a
singleton list, each candidate whose join with `cwd` exists and is not a
directory. -/
def extract_valid_files (fs : FS) (paths : List String) (cwd : String) :
    List (List String) :=
  match paths with
  | [] => []
  | p :: rest =>
    if fs.pathExists (join cwd p) && !fs.isdir (join cwd p) then
      [p] :: extract_valid_files fs rest cwd
    else extract_valid_files fs rest cwd

/-! ## Configuration bootstrap (create_template_ini_file, lines 99-119)

Process state is a `World`: the regular files present (name/content
pairs), the lines printed so far, and the exit status requested by
`sys.exit`, if any. -/

/-- Process state for the bootstrap step. -/
structure World where
  files : List (String × String)
  printed : List String
  exitCode : Option Nat
deriving DecidableEq

/-- `os.path.isfile(p)` against the modelled regular files. -/
def World.isFile (w : World) (p : String) : Bool :=
  w.files.any (fun e => e.1 == p)

/-- Python `str.capitalize`: first character upper-cased, the rest
lower-cased. -/
def capitalize (s : String) : String :=
  match s.toList with
  | [] => ""
  | c :: rest => String.mk (c.toUpper :: rest.map Char.toLower)

/-- The per-backend configuration file location:
`os.path.join(CONFIG_DIR, "openaiapirc")` or `.../geminiapirc` (lines 22-24,
103-108), with the configuration directory as a parameter. -/
def iniPath (apiType configDir : String) : String :=
  if apiType == "openai" then join configDir "openaiapirc"
  else join configDir "geminiapirc"

/-- The template content written for each backend (lines 105, 109). -/
def iniContent (apiType : String) : String :=
  if apiType == "openai" then
    "[openai]\nsecret_key=\napi_base=https://api.openai.com/v1\nmodel=gpt-4-turbo-preview\n"
  else "[gemini]\napi_key=\n"

/-- The help URL printed for each backend (lines 106, 110). -/
def iniUrl (apiType : String) : String :=
  if apiType == "openai" then "https://platform.openai.com/api-keys"
  else "Google AI Studio"

/-- `create_template_ini_file(api_type)` (lines 99-119): when the
backend's configuration file is absent, write the template, print three
instructions and exit with status 1; otherwise do nothing. -/
def create_template_ini_file (apiType configDir : String) (w : World) :
    World :=
  if w.isFile (iniPath apiType configDir) then w
  else
    { files := w.files ++ [(iniPath apiType configDir, iniContent apiType)],
      printed := w.printed ++
        [capitalize apiType ++ " API config file created at " ++
           iniPath apiType configDir,
         "Please edit it and add your API key",
         "If you do not yet have an API key, you can get it from: " ++
           iniUrl apiType],
      exitCode := some 1 }

/-! ## Observable effects of the completion path (get_completion,
lines 147-205, and main, line 263)

Only the openai branch is exercised by the effect claims; its observable
actions, in program order, are: one read of the shell history file, one
directory listing of `cwd` (while building the context messages), one
backend call, and two debug-file writes.  The final reconciled completion
is written to standard output by `main`. -/

/-- One observable action of the program. -/
inductive Event where
  | readFile : String → Event
  | listDir : String → Event
  | backendCall : Event
  | writeFile : String → Event
  | stdoutWrite : Event
deriving DecidableEq

/-- The openai branch of `get_completion` (lines 149-195), with the
backend's reply as an oracle parameter: its event trace and its returned
raw completion (`response.choices[0].message.content`). -/
def get_completion_openai (home cwd responseContent : String) :
    List Event × String :=
  ([Event.readFile (join home ".zsh_history"), Event.listDir cwd,
    Event.backendCall,
    Event.writeFile "send.txt", Event.writeFile "response.txt"],
   responseContent)

/-- The observable actions of the completion path of `main`: the
`get_completion` call followed by the final `sys.stdout.write`
(line 263). -/
def completion_path_events (home cwd responseContent : String) :
    List Event :=
  (get_completion_openai home cwd responseContent).1 ++ [Event.stdoutWrite]

/-! ## Theorems about reconciliation -/

/-- C1: the reconciliation performs, in this exact order, marker removal,
leading prefix/line-prefix stripping, trailing suffix stripping, and
newline trimming; on buffer `"list files\n"` with cursor position 11 and
raw reply `"#!/bin/zsh\n\nlist files\nls -la"`, the result is exactly
`"ls -la"`. -/
theorem reconcile_order_and_scenario :
    (∀ bpre bsuf c, reconcile bpre bsuf c =
      stripNL (stripTrail bsuf (stripLead bpre (linePrefix bpre) (stripMarker c)))) ∧
    reconcile (pySliceTo ("list files\n".toList) 11)
      (pySliceFrom ("list files\n".toList) 11)
      ("#!/bin/zsh\n\nlist files\nls -la".toList) = "ls -la".toList := by
  constructor
  · intro bpre bsuf c
    rfl
  · decide

/-- If the head of a list is not a newline, `dropWhile isNL` is the
identity on it. -/
theorem dropWhile_isNL_of_head (c : List Char) (h : c.head? ≠ some '\n') :
    c.dropWhile isNL = c := by
  cases c with
  | nil => rfl
  | cons a t =>
    have ha : a ≠ '\n' := by
      intro hEq
      exact h (by simp [hEq])
    have hb : (a == '\n') = false := beq_eq_false_iff_ne.mpr ha
    simp [List.dropWhile, isNL, hb]

/-- C9: for every buffer and every integer cursor position (also outside
`[0, length]`), the Python slices `buffer[:n]` and `buffer[n:]` recombine
to the buffer, and the text sent to the backend is the marker followed by
exactly the original buffer. -/
theorem slice_invariant_and_payload (buffer : List Char) (n : Int) :
    pySliceTo buffer n ++ pySliceFrom buffer n = buffer ∧
    full_command (pySliceTo buffer n) (pySliceFrom buffer n) =
      zshMarker ++ buffer := by
  constructor
  · exact List.take_append_drop _ _
  · unfold full_command pySliceTo pySliceFrom
    rw [List.append_assoc, List.take_append_drop]

/-- C5: reconciliation is the identity on a raw completion that is already
final — no leading marker, no leading overlap with the prefix or the line
prefix, no trailing overlap with a non-empty suffix, and no surrounding
newlines. -/
theorem reconcile_idempotent (bpre bsuf c : List Char)
    (h1 : zshMarker.isPrefixOf c = false)
    (h2 : bpre.isPrefixOf c = false)
    (h3 : (linePrefix bpre).isPrefixOf c = false)
    (h4 : bsuf.isEmpty = false → bsuf.isSuffixOf c = false)
    (h5 : c.head? ≠ some '\n')
    (h6 : c.getLast? ≠ some '\n') :
    reconcile bpre bsuf c = c := by
  unfold reconcile stripMarker stripLead stripTrail stripNL
  rw [h1]
  simp only [if_false, Bool.false_eq_true]
  rw [h2, h3]
  simp only [if_false, Bool.false_eq_true]
  have htrail : (!bsuf.isEmpty && bsuf.isSuffixOf c) = false := by
    cases hbe : bsuf.isEmpty with
    | true => simp [hbe]
    | false => simp [hbe, h4 hbe]
  rw [htrail]
  simp only [if_false, Bool.false_eq_true]
  rw [dropWhile_isNL_of_head c h5]
  rw [dropWhile_isNL_of_head c.reverse (by rwa [List.head?_reverse])]
  exact List.reverse_reverse c

/-- Witness for C5 at a concrete already-final completion. -/
theorem reconcile_idempotent_witness :
    reconcile ("echo ".toList) [] ("ls -la".toList) = "ls -la".toList :=
  reconcile_idempotent ("echo ".toList) [] ("ls -la".toList)
    (by decide) (by decide) (by decide) (by decide) (by decide) (by decide)

/-! ## Theorems about path extraction -/

/-- Every element emitted by the findall scan is a contiguous substring of
the scanned text. -/
theorem mem_scan_isInfix :
    ∀ (fuel : Nat) (prev : Option Char) (s e : List Char),
      e ∈ scan fuel prev s → e <:+: s := by
  intro fuel
  induction fuel with
  | zero => intro prev s e h; simp [scan] at h
  | succ f ih =>
    intro prev s e h
    cases s with
    | nil => simp [scan] at h
    | cons c rest =>
      rw [scan] at h
      cases htm : tryMatchAt prev (c :: rest) with
      | none =>
        rw [htm] at h
        exact (ih (some c) rest e h).trans ⟨[c], [], by simp⟩
      | some nb =>
        obtain ⟨n, isU⟩ := nb
        rw [htm] at h
        simp only [List.mem_cons] at h
        rcases h with h | h
        · subst h
          cases isU with
          | true =>
            exact ⟨[], (c :: rest).drop n, by simp⟩
          | false =>
            exact ⟨[], c :: rest, by simp⟩
        · exact (ih _ _ e h).trans ⟨(c :: rest).take n, [], by simp⟩

/-- The guard `all([[isinstance(p, str)] for p in ...])` is a Python `all`
over singleton lists, which are all truthy: it is `true` for every list
and every element test. -/
theorem warnGuard_eq_true {α : Type} (ms : List α) (isStr : α → Bool) :
    warnGuard ms isStr = true := by
  simp only [warnGuard, List.all_eq_true]
  intro l hl
  obtain ⟨p, _, rfl⟩ := List.mem_map.1 hl
  simp

/-- Consequence: `extract_paths` always takes the non-defensive branch. -/
theorem extract_paths_run_eq (text : List Char) :
    extract_paths_run text = ([], findAllMatches text) := by
  simp [extract_paths_run, warnGuard_eq_true]

/-- C6: the defensive warning branch of `extract_paths` is unreachable —
the guard evaluates to `true` for every possible match list (each element
of the checked list is a singleton list, hence truthy), so the function
never prints the warning and never returns the defensive empty result. -/
theorem guard_branch_unreachable :
    (∀ (ms : List (List Char)) (isStr : List Char → Bool),
        warnGuard ms isStr = true) ∧
    ∀ text, (extract_paths_run text).1 = [] ∧
      extract_paths text = findAllMatches text := by
  refine ⟨fun ms isStr => warnGuard_eq_true ms isStr, fun text => ?_⟩
  rw [extract_paths, extract_paths_run_eq]
  exact ⟨rfl, rfl⟩

/-- C2 counterexample: on the input `"C:\dir\file.txt"` the Windows path
substring does not appear in the result of `extract_paths` (the capture
group surrounds only the Unix alternatives, so the match contributes the
empty string). -/
theorem windows_path_not_returned :
    ¬ ("C:\\dir\\file.txt".toList ∈
        extract_paths ("C:\\dir\\file.txt".toList)) := by
  decide

/-- C2 (amended): every entry returned by `extract_paths` is a (possibly
empty) contiguous substring of the input; Unix-like matches contribute the
matched substring, in order of first appearance with duplicates
preserved, while a Windows-like match contributes the empty string — in
particular `"C:\dir\file.txt"` yields a single empty entry, and
`"see ./a and ./a"` yields the two occurrences of `"./a"` in order. -/
theorem extract_paths_substrings :
    (∀ text e, e ∈ extract_paths text → e <:+: text) ∧
    extract_paths ("C:\\dir\\file.txt".toList) = [[]] ∧
    extract_paths ("see ./a and ./a".toList) =
      ["./a".toList, "./a".toList] := by
  refine ⟨fun text e h => ?_, by decide, by decide⟩
  rw [extract_paths, extract_paths_run_eq] at h
  exact mem_scan_isInfix text.length none text e h

/-- Witness for C2 (amended): a concrete extracted entry is a substring of
the concrete input. -/
theorem extract_paths_substrings_witness :
    ("./a".toList) <:+: ("see ./a and ./a".toList) :=
  extract_paths_substrings.1 ("see ./a and ./a".toList) ("./a".toList)
    (by decide)

/-- C10: whenever the combined pattern matches through the Windows
alternative (capture flag `false`), the scan contributes the empty string
to the result; on input `"C:\dir\file.txt"` the Windows alternative
matches the whole input and `extract_paths` returns exactly one empty
entry. -/
theorem windows_match_contributes_empty :
    (∀ (fuel : Nat) (prev : Option Char) (s : List Char) (n : Nat),
        s ≠ [] → tryMatchAt prev s = some (n, false) →
        scan (fuel + 1) prev s =
          [] :: scan fuel s[n - 1]? (s.drop n)) ∧
    tryMatchAt none ("C:\\dir\\file.txt".toList) = some (15, false) ∧
    extract_paths ("C:\\dir\\file.txt".toList) = [[]] := by
  refine ⟨fun fuel prev s n hs htm => ?_, by decide, by decide⟩
  cases s with
  | nil => exact absurd rfl hs
  | cons c rest =>
    rw [scan, htm]
    simp

/-- Witness for C10 at the concrete Windows-path input. -/
theorem windows_match_contributes_empty_witness :
    scan 15 none ("C:\\dir\\file.txt".toList) =
      [] :: scan 14 (("C:\\dir\\file.txt".toList)[14]?)
        (("C:\\dir\\file.txt".toList).drop 15) :=
  windows_match_contributes_empty.1 14 none ("C:\\dir\\file.txt".toList) 15
    (by decide) (by decide)

/-! ## Theorems about classification -/

/-- Membership characterization for `extract_valid_dirs`. -/
theorem mem_extract_valid_dirs (fs : FS) (paths : List String) (cwd : String)
    (x : List String) :
    x ∈ extract_valid_dirs fs paths cwd ↔
      ∃ p, p ∈ paths ∧ x = [p] ∧ fs.isdir (join cwd p) = true := by
  induction paths with
  | nil => simp [extract_valid_dirs]
  | cons q rest ih =>
    simp only [extract_valid_dirs]
    by_cases hq : fs.isdir (join cwd q) = true
    · rw [if_pos hq]
      simp only [List.mem_cons, ih]
      constructor
      · rintro (rfl | ⟨p, hp, rfl, hd⟩)
        · exact ⟨q, Or.inl rfl, rfl, hq⟩
        · exact ⟨p, Or.inr hp, rfl, hd⟩
      · rintro ⟨p, hp, rfl, hd⟩
        rcases hp with rfl | hp
        · exact Or.inl rfl
        · exact Or.inr ⟨p, hp, rfl, hd⟩
    · rw [if_neg hq, ih]
      constructor
      · rintro ⟨p, hp, rfl, hd⟩
        exact ⟨p, List.mem_cons_of_mem q hp, rfl, hd⟩
      · rintro ⟨p, hp, rfl, hd⟩
        rcases List.mem_cons.1 hp with rfl | hp
        · exact absurd hd hq
        · exact ⟨p, hp, rfl, hd⟩

/-- Membership characterization for `extract_valid_files`. -/
theorem mem_extract_valid_files (fs : FS) (paths : List String) (cwd : String)
    (x : List String) :
    x ∈ extract_valid_files fs paths cwd ↔
      ∃ p, p ∈ paths ∧ x = [p] ∧ fs.pathExists (join cwd p) = true ∧
        fs.isdir (join cwd p) = false := by
  induction paths with
  | nil => simp [extract_valid_files]
  | cons q rest ih =>
    simp only [extract_valid_files]
    by_cases hq : (fs.pathExists (join cwd q) && !fs.isdir (join cwd q)) = true
    · have hq' : fs.pathExists (join cwd q) = true ∧
          fs.isdir (join cwd q) = false := by
        simpa [Bool.and_eq_true, Bool.not_eq_true'] using hq
      rw [if_pos hq]
      simp only [List.mem_cons, ih]
      constructor
      · rintro (rfl | ⟨p, hp, rfl, hd⟩)
        · exact ⟨q, Or.inl rfl, rfl, hq'⟩
        · exact ⟨p, Or.inr hp, rfl, hd⟩
      · rintro ⟨p, hp, rfl, hd⟩
        rcases hp with rfl | hp
        · exact Or.inl rfl
        · exact Or.inr ⟨p, hp, rfl, hd⟩
    · have hq' : ¬ (fs.pathExists (join cwd q) = true ∧
          fs.isdir (join cwd q) = false) := by
        intro hc
        exact hq (by simp [Bool.and_eq_true, Bool.not_eq_true', hc.1, hc.2])
      rw [if_neg hq, ih]
      constructor
      · rintro ⟨p, hp, rfl, hd⟩
        exact ⟨p, List.mem_cons_of_mem q hp, rfl, hd⟩
      · rintro ⟨p, hp, rfl, hd⟩
        rcases List.mem_cons.1 hp with rfl | hp
        · exact absurd hd hq'
        · exact ⟨p, hp, rfl, hd⟩

/-- `extract_valid_dirs` preserves the input order: it is a sublist of the
singleton-wrapped input. -/
theorem extract_valid_dirs_sublist (fs : FS) (paths : List String)
    (cwd : String) :
    List.Sublist (extract_valid_dirs fs paths cwd) (paths.map (fun q => [q])) := by
  induction paths with
  | nil => simp [extract_valid_dirs]
  | cons q rest ih =>
    simp only [extract_valid_dirs, List.map_cons]
    by_cases hq : fs.isdir (join cwd q) = true
    · rw [if_pos hq]
      exact List.Sublist.cons₂ [q] ih
    · rw [if_neg hq]
      exact List.Sublist.cons [q] ih

/-- `extract_valid_files` preserves the input order: it is a sublist of the
singleton-wrapped input. -/
theorem extract_valid_files_sublist (fs : FS) (paths : List String)
    (cwd : String) :
    List.Sublist (extract_valid_files fs paths cwd) (paths.map (fun q => [q])) := by
  induction paths with
  | nil => simp [extract_valid_files]
  | cons q rest ih =>
    simp only [extract_valid_files, List.map_cons]
    by_cases hq : (fs.pathExists (join cwd q) && !fs.isdir (join cwd q)) = true
    · rw [if_pos hq]
      exact List.Sublist.cons₂ [q] ih
    · rw [if_neg hq]
      exact List.Sublist.cons [q] ih

/-- C3: against any filesystem in which directories exist, a candidate
whose join with `cwd` is a directory appears (as a singleton group) in
`valid_dirs`; one whose join exists and is not a directory appears in
`valid_files`; one whose join does not exist appears in neither; and both
outputs preserve the input order. -/
theorem classify_spec (fs : FS)
    (hfs : ∀ q, fs.isdir q = true → fs.pathExists q = true)
    (paths : List String) (cwd p : String) (hp : p ∈ paths) :
    (fs.isdir (join cwd p) = true →
      [p] ∈ extract_valid_dirs fs paths cwd) ∧
    (fs.pathExists (join cwd p) = true → fs.isdir (join cwd p) = false →
      [p] ∈ extract_valid_files fs paths cwd) ∧
    (fs.pathExists (join cwd p) = false →
      [p] ∉ extract_valid_dirs fs paths cwd ∧
      [p] ∉ extract_valid_files fs paths cwd) ∧
    List.Sublist (extract_valid_dirs fs paths cwd) (paths.map (fun q => [q])) ∧
    List.Sublist (extract_valid_files fs paths cwd) (paths.map (fun q => [q])) := by
  refine ⟨?_, ?_, ?_, extract_valid_dirs_sublist fs paths cwd,
    extract_valid_files_sublist fs paths cwd⟩
  · intro hd
    exact (mem_extract_valid_dirs fs paths cwd [p]).2 ⟨p, hp, rfl, hd⟩
  · intro hex hnd
    exact (mem_extract_valid_files fs paths cwd [p]).2 ⟨p, hp, rfl, hex, hnd⟩
  · intro hnex
    constructor
    · intro hx
      obtain ⟨q, _, hxq, hd⟩ := (mem_extract_valid_dirs fs paths cwd [p]).1 hx
      injection hxq with h1 _
      subst h1
      exact absurd (hfs _ hd) (by simp [hnex])
    · intro hx
      obtain ⟨q, _, hxq, hex, _⟩ :=
        (mem_extract_valid_files fs paths cwd [p]).1 hx
      injection hxq with h1 _
      subst h1
      exact absurd hex (by simp [hnex])

/-- A small concrete filesystem used by witnesses: `/c/d` is a directory
and `/c/f` is a file. -/
def fsW : FS :=
  ⟨fun s => s == "/c/d", fun s => s == "/c/d" || s == "/c/f"⟩

/-- Witness for C3 at a concrete filesystem, working directory and
candidate list. -/
theorem classify_spec_witness :
    ["d"] ∈ extract_valid_dirs fsW ["d", "f", "x"] "/c" :=
  (classify_spec fsW
    (by intro q hq; simp [fsW] at hq ⊢; simp [hq])
    ["d", "f", "x"] "/c" "d" (by decide)).1 (by decide)

/-- C4: no candidate group appears in both classification outputs — the
`valid_dirs` and `valid_files` results are disjoint, for every filesystem,
candidate list and working directory. -/
theorem dirs_files_disjoint (fs : FS) (paths : List String) (cwd : String)
    (x : List String) (hx : x ∈ extract_valid_dirs fs paths cwd) :
    x ∉ extract_valid_files fs paths cwd := by
  intro hy
  obtain ⟨p, _, rfl, hd⟩ := (mem_extract_valid_dirs fs paths cwd x).1 hx
  obtain ⟨q, _, hxq, _, hnd⟩ := (mem_extract_valid_files fs paths cwd _).1 hy
  injection hxq with h1 _
  subst h1
  rw [hd] at hnd
  exact Bool.noConfusion hnd

/-- Witness for C4 at the concrete filesystem of `fsW`. -/
theorem dirs_files_disjoint_witness :
    ["d"] ∉ extract_valid_files fsW ["d", "f", "x"] "/c" :=
  dirs_files_disjoint fsW ["d", "f", "x"] "/c" ["d"] (by decide)

/-! ## Theorems about the configuration bootstrap -/

/-- C7: for each backend, when the backend's configuration file is absent
the bootstrap writes the template (with its placeholder fields) and exits
with the non-zero status 1; when the file already exists it changes
nothing and does not exit. -/
theorem template_bootstrap (apiType configDir : String) (w : World) :
    (w.isFile (iniPath apiType configDir) = false →
      (create_template_ini_file apiType configDir w).files =
        w.files ++ [(iniPath apiType configDir, iniContent apiType)] ∧
      (create_template_ini_file apiType configDir w).exitCode = some 1 ∧
      (1 : Nat) ≠ 0) ∧
    (w.isFile (iniPath apiType configDir) = true →
      create_template_ini_file apiType configDir w = w) := by
  constructor
  · intro habs
    rw [create_template_ini_file, habs]
    exact ⟨rfl, rfl, one_ne_zero⟩
  · intro hpres
    rw [create_template_ini_file, hpres]
    rfl

/-- Witness for C7: from an empty world the openai bootstrap writes the
template and requests exit status 1; in a world already holding the file
it does nothing. -/
theorem template_bootstrap_witness :
    (create_template_ini_file "openai" "/cfg" ⟨[], [], none⟩).exitCode =
      some 1 ∧
    create_template_ini_file "openai" "/cfg"
        ⟨[("/cfg/openaiapirc", "x")], [], none⟩ =
      ⟨[("/cfg/openaiapirc", "x")], [], none⟩ :=
  ⟨((template_bootstrap "openai" "/cfg" ⟨[], [], none⟩).1 (by decide)).2.1,
   (template_bootstrap "openai" "/cfg"
      ⟨[("/cfg/openaiapirc", "x")], [], none⟩).2 (by decide)⟩

/-! ## Theorems about observable effects -/

/-- C8 counterexample: the completion path performs a file write
(`send.txt`) that is neither the backend call nor the final output
emission, so it is not free of other observable effects. -/
theorem completion_path_extra_write :
    Event.writeFile "send.txt" ∈
      completion_path_events "/home/u" "/cwd" "ls -la" ∧
    Event.writeFile "send.txt" ≠ Event.backendCall ∧
    Event.writeFile "send.txt" ≠ Event.stdoutWrite := by
  refine ⟨?_, by decide, by decide⟩
  simp [completion_path_events, get_completion_openai]

/-- C8 (amended): neither purity conjunct of the claim holds.  The openai
completion path, besides the one backend call and the final output
emission, also reads the shell history file, lists the working directory,
and writes the two debug files `send.txt` and `response.txt` (returning
the backend's reply unchanged); and the `extract_paths` of
src/extract_paths.py prints its two diagnostics unconditionally on every
call — only the copy in src/create_completion.py is observably pure,
because its sole print sits in the warning branch, which never fires. -/
theorem completion_path_effects (home cwd resp : String) (text : List Char) :
    completion_path_events home cwd resp =
      [Event.readFile (join home ".zsh_history"), Event.listDir cwd,
       Event.backendCall, Event.writeFile "send.txt",
       Event.writeFile "response.txt", Event.stdoutWrite] ∧
    (get_completion_openai home cwd resp).2 = resp ∧
    (extract_paths_script_run text).1 =
      [ScriptPrint.printMatches (findAllMatches text),
       ScriptPrint.printChecks
         ((findAllMatches text).map (fun _p => [true]))] ∧
    (extract_paths_script_run text).1 ≠ [] ∧
    (extract_paths_run text).1 = [] := by
  refine ⟨rfl, rfl, ?_, ?_, ?_⟩
  · simp [extract_paths_script_run, warnGuard_eq_true]
  · simp [extract_paths_script_run, warnGuard_eq_true]
  · rw [extract_paths_run_eq]

end ZshCodex
